import Mathlib

/-!
Verification development for the XDAYS SMS template engine (`app.py`).

The Python source is shallowly embedded: a table cell read through
`pd.read_csv(..., dtype=str, na_filter=False)` and the pipeline is either a
string or a missing value (`pd.NA` / `np.nan`), modelled as `Option String`.
Python floats are modelled by `PyFloat` (exact rationals plus the special
values `nan`, `inf`, `-inf`); decimal-literal parsing is exact rational
arithmetic, which agrees with binary64 on every comparison appearing in this
development.  All definitions are computable so that concrete witnesses can be
settled by evaluation.
-/

namespace App

/-- A table cell: `none` is the missing marker (`pd.NA` / `np.nan`). -/
abbrev Cell := Option String

/-- Python `str()` of a cell value; `str(pd.NA) = "<NA>"`.  (For `np.nan` the
text would be `"nan"`; every use of `pyStr` on a missing cell in this
development feeds a numeric parse where both spellings fail or yield a
non-finite value, giving the same downstream result.) -/
def pyStr (c : Cell) : String :=
  match c with
  | none => "<NA>"
  | some s => s

/-- The whitespace set of Python `str.strip` / `str.split` (ASCII part). -/
def pyIsSpace (ch : Char) : Bool :=
  ch = ' ' ∨ ch = '\t' ∨ ch = '\n' ∨ ch = '\r' ∨ ch = '\x0b' ∨ ch = '\x0c'

/-- Python `str.strip()` on a character list. -/
def pyStripList (l : List Char) : List Char :=
  ((l.dropWhile pyIsSpace).reverse.dropWhile pyIsSpace).reverse

/-- Python `str.strip()`. -/
def pyStrip (s : String) : String :=
  String.mk (pyStripList s.data)

/-- Python `str.split()` (split on whitespace runs, dropping empty pieces). -/
def pySplitWsAux : List Char → List Char → List (List Char)
  | [], acc => if acc = [] then [] else [acc.reverse]
  | ch :: rest, acc =>
    if pyIsSpace ch then
      if acc = [] then pySplitWsAux rest [] else acc.reverse :: pySplitWsAux rest []
    else pySplitWsAux rest (ch :: acc)

/-- Python `str.split()` as strings. -/
def pySplitWs (s : String) : List String :=
  (pySplitWsAux s.data []).map String.mk

/-- `s.split()[0]`, i.e. the first whitespace-delimited token (empty string
when the input is all whitespace; every call site guards against that). -/
def firstToken (s : String) : String :=
  match pySplitWs s with
  | [] => ""
  | t :: _ => t

/-- Lower-cased character (ASCII, as the headers in scope are ASCII). -/
def lowerChar (ch : Char) : Char := ch.toLower

/-- Is the character in `[a-z0-9]`? -/
def isLowerAlnum (ch : Char) : Bool :=
  (('a' ≤ ch ∧ ch ≤ 'z') ∨ ('0' ≤ ch ∧ ch ≤ '9'))

/-- `normalize` from `app.py`: lower-case, keep only `[a-z0-9]`
(`re.sub(r"[^a-z0-9]", "", str(col).lower())`). -/
def normalize (col : String) : String :=
  String.mk ((col.data.map lowerChar).filter isLowerAlnum)

/-- Substring containment on character lists (Python `pat in s`). -/
def isSubLC (pat : List Char) : List Char → Bool
  | [] => pat.isEmpty
  | l@(_ :: rest) => pat.isPrefixOf l || isSubLC pat rest

/-- Python substring test `a in b`. -/
def containsSub (pat s : String) : Bool :=
  isSubLC pat.data s.data

/-- Python `str.replace(pat, rep)` on character lists: leftmost,
non-overlapping, all occurrences.  Fuel-driven structural recursion (one unit
of fuel per consumed character); the wrapper supplies enough fuel.  The call
sites only use nonempty patterns; an empty pattern matches nowhere here. -/
def replGo (pat rep : List Char) : Nat → List Char → List Char
  | _, [] => []
  | 0, l => l
  | fuel + 1, a :: rest =>
    if pat ≠ [] ∧ pat.isPrefixOf (a :: rest) then
      rep ++ replGo pat rep fuel (rest.drop (pat.length - 1))
    else
      a :: replGo pat rep fuel rest

/-- Python `str.replace`. -/
def pyReplace (s pat rep : String) : String :=
  String.mk (replGo pat.data rep.data s.data.length s.data)

/-- Value of a digit character list read as a natural number. -/
def digitsToNat (l : List Char) : Nat :=
  l.foldl (fun acc ch => acc * 10 + (ch.toNat - '0'.toNat)) 0

/-- A Python `float`: exact rational for finite values, plus specials. -/
inductive PyFloat where
  | nan : PyFloat
  | inf : PyFloat
  | ninf : PyFloat
  | fin : ℚ → PyFloat
deriving DecidableEq

/-- IEEE-style `x ≥ t` against a rational bound (`nan` compares false). -/
def PyFloat.geQ (x : PyFloat) (t : ℚ) : Bool :=
  match x with
  | .nan => false
  | .inf => true
  | .ninf => false
  | .fin q => t ≤ q

/-- IEEE-style `x > t` against a rational bound (`nan` compares false). -/
def PyFloat.gtQ (x : PyFloat) (t : ℚ) : Bool :=
  match x with
  | .nan => false
  | .inf => true
  | .ninf => false
  | .fin q => t < q

/-- IEEE-style `x == t` against a rational bound (`nan` compares false). -/
def PyFloat.eqQ (x : PyFloat) (t : ℚ) : Bool :=
  match x with
  | .fin q => q = t
  | _ => false

/-- Digit run at the front of a character list. -/
def leadDigits (l : List Char) : List Char :=
  l.takeWhile Char.isDigit

/-- Mantissa parser for `float(...)`: `digits[.digits]`, `.digits` or
`digits.`; returns the concatenated digit value and the fraction length
(so the value is `digits / 10 ^ fracLen`). -/
def parseMantissa (l : List Char) : Option (Nat × Nat) :=
  let ip := leadDigits l
  let rest := l.drop ip.length
  match rest with
  | [] => if ip = [] then none else some (digitsToNat ip, 0)
  | '.' :: fr =>
    let fp := leadDigits fr
    if fr.drop fp.length ≠ [] then none
    else if ip = [] ∧ fp = [] then none
    else some (digitsToNat (ip ++ fp), fp.length)
  | _ => none

/-- Exponent part of a `float` literal: `e`/`E` then optionally-signed digits;
`none` when absent, failure is signalled by the caller re-checking. -/
def parseExp (l : List Char) : Option (Option Int) :=
  match l with
  | [] => some none
  | e :: rest =>
    if e = 'e' ∨ e = 'E' then
      let sign : Int := match rest with
        | '-' :: _ => -1
        | _ => 1
      let ds := match rest with
        | '-' :: r => r
        | '+' :: r => r
        | r => r
      if ds ≠ [] ∧ ds.all Char.isDigit then some (some (sign * digitsToNat ds)) else none
    else none

/-- Split a float literal at the exponent marker. -/
def splitAtExp (l : List Char) : List Char × List Char :=
  (l.takeWhile (fun ch => ¬(ch = 'e' ∨ ch = 'E')),
   l.dropWhile (fun ch => ¬(ch = 'e' ∨ ch = 'E')))

/-- Lower-cased string of a character list. -/
def lowerList (l : List Char) : List Char := l.map lowerChar

/-- Python `float(s)` (ValueError is `none`).  Underscore digit grouping is
not modelled; no input in this development uses it. -/
def pyFloat (s : String) : Option PyFloat :=
  let t := pyStripList s.data
  let (neg, body) :=
    match t with
    | '-' :: r => (true, r)
    | '+' :: r => (false, r)
    | r => (false, r)
  if lowerList body = "inf".data ∨ lowerList body = "infinity".data then
    some (if neg then .ninf else .inf)
  else if lowerList body = "nan".data then
    some .nan
  else
    let (mant, ex) := splitAtExp body
    match parseMantissa mant with
    | none => none
    | some (m, fl) =>
      match parseExp ex with
      | none => none
      | some eo =>
        let e : Int := match eo with
          | none => 0
          | some e => e
        let num : Nat := if 0 ≤ e then m * 10 ^ e.toNat else m
        let den : Nat := if 0 ≤ e then 10 ^ fl else 10 ^ (fl + (-e).toNat)
        some (.fin (mkRat (if neg then -(num : Int) else (num : Int)) den))

/-- The decimal digit character for `n < 10`. -/
def digitChar (n : Nat) : Char :=
  Char.ofNat (48 + n)

/-- Decimal digit characters of a natural number, most significant first
(fuel-driven so that the kernel can evaluate it). -/
def natCharsGo : Nat → Nat → List Char
  | 0, _ => []
  | fuel + 1, n => if n < 10 then [digitChar n] else natCharsGo fuel (n / 10) ++ [digitChar (n % 10)]

/-- Decimal digit characters of a natural number. -/
def natChars (n : Nat) : List Char :=
  natCharsGo (n + 1) n

/-- Decimal rendering of an integer. -/
def intChars (z : Int) : List Char :=
  if z < 0 then '-' :: natChars (-z).toNat else natChars z.toNat

/-- Round `100 * q` to the nearest integer, ties to even (the rounding of
Python float formatting, applied to the exact rational value). -/
def roundCents (q : ℚ) : Int :=
  let n := 100 * q.num
  let d : Int := (q.den : Int)
  let f := Int.fdiv n d
  let r := n - f * d
  if 2 * r < d then f
  else if d < 2 * r then f + 1
  else if f % 2 = 0 then f else f + 1

/-- Chunks of three from the right of a most-significant-first digit list
(given the list reversed). -/
def revChunks3 : List Char → List (List Char)
  | [] => []
  | [a] => [[a]]
  | [a, b] => [[b, a]]
  | a :: b :: c :: rest => [c, b, a] :: revChunks3 rest

/-- Insert thousands separators into a most-significant-first digit list. -/
def group3 (ds : List Char) : List Char :=
  ((revChunks3 ds.reverse).reverse.intersperse [',']).flatten

/-- Python `f"{x:,.2f}"`. -/
def fmtComma2 (x : PyFloat) : String :=
  match x with
  | .nan => "nan"
  | .inf => "inf"
  | .ninf => "-inf"
  | .fin q =>
    let n := roundCents q
    let sign : List Char := if n < 0 then ['-'] else []
    let a := n.natAbs
    let frac := a % 100
    let fracChars := if frac < 10 then '0' :: natChars frac else natChars frac
    String.mk (sign ++ group3 (natChars (a / 100)) ++ '.' :: fracChars)

/-- A calendar date `(year, month, day)`. -/
abbrev Date := Int × Nat × Nat

/-- Civil-calendar date from a day count relative to 1970-01-01
(the standard days-to-civil algorithm, used to evaluate
`pd.to_datetime(n, unit="D", origin="1899-12-30")`). -/
def civilFromDays (z0 : Int) : Date :=
  let z := z0 + 719468
  let era := (if 0 ≤ z then z else z - 146096) / 146097
  let doe := (z - era * 146097).toNat
  let yoe := (doe - doe / 1460 + doe / 36524 - doe / 146096) / 365
  let y := (yoe : Int) + era * 400
  let doy := doe - (365 * yoe + yoe / 4 - yoe / 100)
  let mp := (5 * doy + 2) / 153
  let d := doy - (153 * mp + 2) / 5 + 1
  let m := if mp < 10 then mp + 3 else mp - 9
  (if m ≤ 2 then y + 1 else y, m, d)

/-- Two-digit zero padding of `%m` / `%d`. -/
def pad2 (n : Nat) : List Char :=
  if n < 10 then '0' :: natChars n else natChars n

/-- `strftime("%m/%d/%Y")`. -/
def fmtDate (d : Date) : String :=
  String.mk (pad2 d.2.1 ++ '/' :: pad2 d.2.2 ++ '/' :: intChars d.1)

/-- `re.fullmatch(r"\d+(?:\.0+)?", s)`, returning the integer value: digits,
optionally followed by a decimal point and one or more zeros. -/
def parseSerial (s : String) : Option Nat :=
  let l := s.data
  let ds := leadDigits l
  let rest := l.drop ds.length
  if ds = [] then none
  else
    match rest with
    | [] => some (digitsToNat ds)
    | '.' :: zs => if zs ≠ [] ∧ zs.all (fun ch => ch = '0') then some (digitsToNat ds) else none
    | _ => none

/-- Largest spreadsheet serial (days from 1899-12-30) whose timestamp fits in
signed 64-bit nanoseconds since 1970: `25569 + 9223372036854775807 / 86400e9`.
Beyond it `pd.to_datetime(..., errors="coerce")` yields `NaT`. -/
def maxSerial : Nat := 132320

/-- Date of a spreadsheet serial (origin 1899-12-30 is day `-25569` relative
to 1970-01-01); `none` models the `NaT` produced for out-of-range values. -/
def serialToDate (n : Nat) : Option Date :=
  if n ≤ maxSerial then some (civilFromDays ((n : Int) - 25569)) else none

/-- Number of days in a month of the civil calendar. -/
def daysInMonth (y : Int) (m : Nat) : Nat :=
  if m = 2 then
    if y % 4 = 0 ∧ (y % 100 ≠ 0 ∨ y % 400 = 0) then 29 else 28
  else if m = 4 ∨ m = 6 ∨ m = 9 ∨ m = 11 then 30
  else 31

/-- All-digit character list read as a number, `none` otherwise. -/
def parseNatAll (l : List Char) : Option Nat :=
  if l ≠ [] ∧ l.all Char.isDigit then some (digitsToNat l) else none

/-- Split a character list on a separator character (every occurrence,
keeping empty pieces, like `str.split(sep)` with an explicit separator). -/
def splitOnChar (sep : Char) : List Char → List (List Char)
  | [] => [[]]
  | a :: rest =>
    let r := splitOnChar sep rest
    if a = sep then [] :: r else (a :: r.headD []) :: r.tail

/-- A `(year, month, day)` triple from three digit groups with a four-digit
year and a valid month/day combination. -/
def mkValidDate (ys ms ds : List Char) : Option Date :=
  match parseNatAll ys, parseNatAll ms, parseNatAll ds with
  | some y, some m, some d =>
    if ys.length = 4 ∧ 1 ≤ m ∧ m ≤ 12 ∧ 1 ≤ d ∧ d ≤ daysInMonth y m then
      some ((y : Int), m, d)
    else none
  | _, _, _ => none

/-- One date token for the model of `pd.to_datetime` on strings: an ISO
`YYYY-MM-DD` or a `MM/DD/YYYY` form with valid month and day. -/
def parseDateToken (t : String) : Option Date :=
  match splitOnChar '-' t.data with
  | [ys, ms, ds] => mkValidDate ys ms ds
  | _ =>
    match splitOnChar '/' t.data with
    | [ms, ds, ys] => mkValidDate ys ms ds
    | _ => none

/-- A `HH:MM` or `HH:MM:SS` time-of-day token. -/
def isTimeToken (t : String) : Bool :=
  match splitOnChar ':' t.data with
  | [hs, ms] =>
    match parseNatAll hs, parseNatAll ms with
    | some h, some m => h ≤ 23 ∧ m ≤ 59
    | _, _ => false
  | [hs, ms, ss] =>
    match parseNatAll hs, parseNatAll ms, parseNatAll ss with
    | some h, some m, some s2 => h ≤ 23 ∧ m ≤ 59 ∧ s2 ≤ 59
    | _, _, _ => false
  | _ => false

/-- Model of `pd.to_datetime(s, errors="coerce")` on the string shapes this
pipeline exercises: a date token optionally followed by a time-of-day token;
anything else (in particular `"N/A"` and digit strings with a nonzero
fraction such as `"44927.5"`) coerces to `NaT`, i.e. `none`. -/
def pdParseDate (s : String) : Option Date :=
  match pySplitWs s with
  | [t] => parseDateToken t
  | [t, tm] =>
    match parseDateToken t with
    | some d => if isTimeToken tm then some d else none
    | none => none
  | _ => none

/-- The generic-parse tail of `format_excel_text_date`: full-string parse,
then first-token parse, then the first token verbatim. -/
def genericDatePhase (s : String) : String :=
  match pdParseDate s with
  | some d => fmtDate d
  | none =>
    match pdParseDate (firstToken s) with
    | some d => fmtDate d
    | none => firstToken s

/-- `format_excel_text_date` from `app.py`: missing/blank to `""`; an
all-digit value (optional all-zero fraction) greater than 31 treated as a
spreadsheet serial when representable; otherwise generic parsing with
first-token fallbacks. -/
def format_excel_text_date (value : Cell) : String :=
  match value with
  | none => ""
  | some v =>
    let s := pyStrip v
    if s = "" then ""
    else
      match parseSerial s with
      | some n =>
        if 31 < n then
          match serialToDate n with
          | some d => fmtDate d
          | none => genericDatePhase s
        else genericDatePhase s
      | none => genericDatePhase s

/-- `TARGET_HEADERS` from `app.py`. -/
def TARGET_HEADERS : List String :=
  ["CYCLE", "LOAN NUMBER", "CUSTOMER NAME", "MOBILE NUMBER", "BOS/CB", "OB",
   "MPR", "PDA", "PTP AMT", "PTP DATE", "TPAP DD", "BUCKET",
   "WITH CONTACT Y/N", "SMS TEMPLATE", "PREVIEW"]

/-- `EXPORT_HEADERS` from `app.py` (`TARGET_HEADERS` without `PREVIEW`). -/
def EXPORT_HEADERS : List String :=
  TARGET_HEADERS.filter (fun h => h ≠ "PREVIEW")

/-- `HEADER_ALIASES` from `app.py`. -/
def HEADER_ALIASES : List (String × List String) :=
  [("CYCLE", ["COLLECTION CYCLE", "CYCLES"]),
   ("LOAN NUMBER", ["LOAN NO", "LOAN#", "loan number", "ACCOUNT NUMBER",
                    "ACCOUNT NO", "ACCT NO", "ACCT NUMBER"]),
   ("CUSTOMER NAME", ["CLIENT NAME", "BORROWER NAME", "CUSTOMER", "NAME"]),
   ("MOBILE NUMBER", ["CONTACT NO", "CONTACT NUMBER", "CELLPHONE NO",
                      "PHONE NUMBER", "MOBILE NO"]),
   ("BOS/CB", ["BOS", "CB", "BRANCH", "CENTER"]),
   ("OB", ["Amount Overdue", "OUTSTANDING BALANCE", "AMOUNT_OUTSTANDING",
           "OUTSTANDING", "OVERDUE AMOUNT"]),
   ("MPR", ["MONTHLY PAYMENT RATE", "MPR VALUE", "MAD"]),
   ("PDA", ["XDAYS", "XDAYS_AMOUNT", "pda"]),
   ("PTP AMT", ["PTP AMOUNT", "PROMISE TO PAY AMT", "AMOUNT PROMISED"]),
   ("PTP DATE", ["PROMISE DATE", "PROMISED DATE", "PTP SCHEDULE"]),
   ("TPAP DD", ["TPAP DATE", "TPA DATE", "TPAP SCHED", "TPA DD"]),
   ("BUCKET", ["AGING BUCKET", "AGE", "BUCKET CATEGORY"]),
   ("WITH CONTACT Y/N", ["WITH CONTACT", "CONTACTABLE", "HAS CONTACT"]),
   ("SMS TEMPLATE", ["TEMPLATE", "MESSAGE TYPE", "SMS TYPE"]),
   ("PREVIEW", ["MESSAGE PREVIEW", "TEXT PREVIEW"])]

/-- Alias list of a canonical field (`HEADER_ALIASES[target]`, empty when the
field has no alias entry). -/
def aliasStrings (target : String) : List String :=
  match HEADER_ALIASES.find? (fun p => p.1 = target) with
  | some p => p.2
  | none => []

/-- Whether `target in HEADER_ALIASES`. -/
def hasAliases (target : String) : Bool :=
  (HEADER_ALIASES.find? (fun p => p.1 = target)).isSome

/-- Insertion into a Python dict modelled as an association list: an existing
key keeps its position but takes the new value; a new key is appended. -/
def dictInsert (d : List (String × String)) (k v : String) : List (String × String) :=
  if d.any (fun p => p.1 = k) then
    d.map (fun p => if p.1 = k then (k, v) else p)
  else d ++ [(k, v)]

/-- Dict lookup. -/
def dictFind (d : List (String × String)) (k : String) : Option String :=
  (d.find? (fun p => p.1 = k)).map (fun p => p.2)

/-- `normalized_existing = {normalize(c): c for c in existing}`: for each
normalized form, the last source header that produced it (dict-comprehension
semantics). -/
def normalizedExisting (existing : List String) : List (String × String) :=
  existing.foldl (fun d c => dictInsert d (normalize c) c) []

/-- The fuzzy rule of step 3: normalized containment either way. -/
def fuzzyMatches (target c : String) : Bool :=
  containsSub (normalize target) (normalize c) || containsSub (normalize c) (normalize target)

/-- The per-target header resolution of `map_and_align_columns`: direct
normalized equality, then normalized alias equality, then the first fuzzy
containment match in original column order. -/
def detectColumn (target : String) (existing : List String) : Option String :=
  let d := normalizedExisting existing
  match dictFind d (normalize target) with
  | some c => some c
  | none =>
    let aliasHit :=
      if hasAliases target then
        (aliasStrings target).findSome? (fun a => dictFind d (normalize a))
      else none
    match aliasHit with
    | some c => some c
    | none => existing.find? (fun c => fuzzyMatches target c)

/-- An input table: ordered columns of equal length (a `DataFrame` read with
`dtype=str, na_filter=False`, whose index is `RangeIndex(n)`). -/
structure DF where
  cols : List (String × List Cell)

/-- The source header list, in original column order. -/
def DF.headers (df : DF) : List String := df.cols.map Prod.fst

/-- `df[c]` for a source header. -/
def dfColumn (df : DF) (c : String) : List Cell :=
  match df.cols.find? (fun p => p.1 = c) with
  | some p => p.2
  | none => []

/-- The in-construction output frame `out = pd.DataFrame()`: its index length
and its columns.  The index length starts at 0 and is set by the first
nonempty Series assignment (pandas `_ensure_valid_index`). -/
structure OutDF where
  idx : Nat
  cols : List (String × List Cell)

/-- Reindexing a column to an index of length `m` (pandas alignment on
`RangeIndex`): keep the first `m` cells, pad with the missing marker. -/
def reindexCol (col : List Cell) (m : Nat) : List Cell :=
  col.take m ++ List.replicate (m - col.length) none

/-- `out[name] = pd.NA`: scalar broadcast over the current (possibly empty)
index. -/
def assignNA (o : OutDF) (name : String) : OutDF :=
  ⟨o.idx, o.cols ++ [(name, List.replicate o.idx none)]⟩

/-- `out[name] = series`: when the frame's index is still empty and the
series is nonempty, pandas adopts the series' index and reindexes the
existing (empty) columns; otherwise the series is aligned to the frame's
index. -/
def assignSeries (o : OutDF) (name : String) (v : List Cell) : OutDF :=
  if o.idx = 0 ∧ v.length ≠ 0 then
    ⟨v.length, (o.cols.map (fun p => (p.1, reindexCol p.2 v.length))) ++ [(name, v)]⟩
  else
    ⟨o.idx, o.cols ++ [(name, reindexCol v o.idx)]⟩

/-- One iteration of the target loop in `map_and_align_columns`. -/
def alignStep (df : DF) (o : OutDF) (t : String) : OutDF :=
  match detectColumn t (DF.headers df) with
  | some c => assignSeries o t (dfColumn df c)
  | none => assignNA o t

/-- `map_and_align_columns` from `app.py` (the diagnostic detection table it
also renders is UI-only and not modelled). -/
def map_and_align_columns (df : DF) (targets : List String) : OutDF :=
  targets.foldl (alignStep df) ⟨0, []⟩

/-- `result[name]` on the output frame. -/
def OutDF.getCol (o : OutDF) (name : String) : List Cell :=
  match o.cols.find? (fun p => p.1 = name) with
  | some p => p.2
  | none => []

/-- Assignment to an existing column of the output frame. -/
def OutDF.setCol (o : OutDF) (name : String) (v : List Cell) : OutDF :=
  ⟨o.idx, o.cols.map (fun p => if p.1 = name then (name, v) else p)⟩

/-- A row as seen by `DataFrame.apply(..., axis=1)`. -/
abbrev Row := List (String × Cell)

/-- Row `i` of the output frame. -/
def OutDF.row (o : OutDF) (i : Nat) : Row :=
  o.cols.map (fun p => (p.1, p.2.getD i none))

/-- All rows of the output frame, in index order. -/
def OutDF.rows (o : OutDF) : List Row :=
  (List.range o.idx).map o.row

/-- Row lookup: `none` when the key is absent, `some c` with the cell
otherwise. -/
def lookupRow (r : Row) (k : String) : Option Cell :=
  (r.find? (fun p => p.1 = k)).map Prod.snd

/-- `row[k]` / `row.get(k)` as a cell (absent keys and missing cells both
read as missing; each call site carries all canonical keys). -/
def rowCell (r : Row) (k : String) : Cell :=
  (lookupRow r k).join

/-- The numeric read of `calculate_bucket`:
`float(str(ob_value).replace(",", "").strip())`, `none` on ValueError. -/
def bucketVal (ob_value : Cell) : Option PyFloat :=
  pyFloat (pyStrip (pyReplace (pyStr ob_value) "," ""))

/-- `calculate_bucket` from `app.py`. -/
def calculate_bucket (ob_value : Cell) : Cell :=
  match bucketVal ob_value with
  | none => none
  | some PyFloat.nan => none
  | some v =>
    if v.geQ 100000 then some "100K and up"
    else if v.geQ 50000 then some "50K - 99K"
    else if v.geQ 6000 then some "6K - 49K"
    else if v.geQ 0 then some "0 - 5K"
    else none

/-- The regex `^63\d{10}$` of `check_contact` (re.match anchored at the
start; the trailing `$` requires the end since the input was stripped). -/
def contactRe : List Char → Bool
  | '6' :: '3' :: rest => rest.length = 10 && rest.all Char.isDigit
  | _ => false

/-- `check_contact` from `app.py`. -/
def check_contact (mobile : Cell) : String :=
  match mobile with
  | none => "N"
  | some s => if contactRe (pyStrip s).data then "Y" else "N"

/-- Capture group of `re.search(r"c(\d{1,3})", ...)` at one position: the
digit run after the `c`, greedily up to three digits. -/
def digitsTake3 (l : List Char) : List Char :=
  (l.takeWhile Char.isDigit).take 3

/-- Left-to-right scan of `re.search(r"c(\d{1,3})", s, re.IGNORECASE)`. -/
def searchCycle : List Char → Option (List Char)
  | [] => none
  | a :: rest =>
    if (a = 'c' ∨ a = 'C') ∧ digitsTake3 rest ≠ [] then some (digitsTake3 rest)
    else searchCycle rest

/-- `detect_cycle_from_filename` from `app.py`. -/
def detect_cycle_from_filename (filename : String) : String :=
  if filename = "" then ""
  else
    match searchCycle filename.data with
    | some ds => String.mk ds
    | none => ""

/-- The per-field numeric read of `detect_template`:
`float(v) if pd.notna(v) and str(v).strip() != "" else 0.0`, with `none` for
the `ValueError` case. -/
def templNum (c : Cell) : Option PyFloat :=
  match c with
  | none => some (PyFloat.fin 0)
  | some s => if pyStrip s = "" then some (PyFloat.fin 0) else pyFloat s

/-- `detect_template` from `app.py`; on `ValueError` all three amounts are
zeroed, which lands in the final `else`. -/
def detect_template (r : Row) : String :=
  match templNum (rowCell r "OB"), templNum (rowCell r "MPR"), templNum (rowCell r "PDA") with
  | some _, some m, some p =>
    if m.gtQ 0 ∧ p.eqQ 0 then "WITH MPR ONLY"
    else if p.gtQ 0 ∧ m.eqQ 0 then "WITH PDA ONLY"
    else if m.gtQ 0 ∧ p.gtQ 0 then "WITH BOTH MPR AND PDA"
    else "NO PAYMENT"
  | _, _, _ => "NO PAYMENT"

/-- The keys of the `TEMPLATES` dict in `app.py` (its values come from
`st.secrets` and are passed in abstractly as `tv`). -/
def TEMPLATE_KEYS : List String :=
  ["CUT OFF SMS", "MPR (3DYS) CUTOFF SMS", "MPR-PDA (L2DYS) CUTOFF SMS",
   "AFTER DUE DATE SMS", "TPAP SMS", "BP SMS (MPR-PDA)",
   "BP SMS NOT DUE (AOD-MPR)", "AOD-MPR", "PTP REMINDER SMS", "PTP SMS",
   "UNCONTACTED SMS", "PAYDAY SMS", "PRE PAYDAY SMS", "INSUFF SMS (MPR-PDA)",
   "INSUFF SMS NOT DUE (AOD-MPR)"]

/-- `TEMPLATES.get(k, "")`: the catalog text for a known key, `""` for an
unknown key or a missing cell used as key. -/
def templatesGet (tv : String → String) (k : Cell) : String :=
  match k with
  | none => ""
  | some s => if s ∈ TEMPLATE_KEYS then tv s else ""

/-- `safe_float` from `format_preview`. -/
def safe_float (val : Cell) : PyFloat :=
  match val with
  | none => PyFloat.fin 0
  | some s =>
    if pyStrip s = "" ∨ pyStrip s = "nan" ∨ pyStrip s = "None" then PyFloat.fin 0
    else
      match pyFloat s with
      | some x => x
      | none => PyFloat.fin 0

/-- `str(row.get(k, ""))`. -/
def rowStr (r : Row) (k : String) : String :=
  match lookupRow r k with
  | none => ""
  | some c => pyStr c

/-- `safe_float(row.get(k, 0))`. -/
def rowNum (r : Row) (k : String) : PyFloat :=
  match lookupRow r k with
  | none => PyFloat.fin 0
  | some c => safe_float c

/-- The `replacements` dict of `format_preview`, in insertion order. -/
def previewReplacements (r : Row) : List (String × String) :=
  [("\x7bCUST_NAME\x7d", rowStr r "CUSTOMER NAME"),
   ("\x7bACC_NO\x7d", rowStr r "LOAN NUMBER"),
   ("\x7bOB\x7d", fmtComma2 (rowNum r "OB")),
   ("\x7bMPR\x7d", fmtComma2 (rowNum r "MPR")),
   ("\x7bPDA\x7d", fmtComma2 (rowNum r "PDA")),
   ("\x7bTPAP DD\x7d", rowStr r "TPAP DD"),
   ("\x7bPTP DATE\x7d", rowStr r "PTP DATE"),
   ("\x7bCYCLE\x7d", rowStr r "CYCLE")]

/-- `format_preview` from `app.py`: the eight replacements applied one after
another with `str.replace`. -/
def format_preview (template : String) (r : Row) : String :=
  (previewReplacements r).foldl (fun t kv => pyReplace t kv.1 kv.2) template

/-- The date-column pass of `process_data`
(`if date_col in result.columns: result[date_col] = result[date_col].apply(format_excel_text_date)`). -/
def applyDateCol (o : OutDF) (name : String) : OutDF :=
  if o.cols.any (fun p => p.1 = name) then
    OutDF.setCol o name ((OutDF.getCol o name).map (fun c => some (format_excel_text_date c)))
  else o

/-- The `PREVIEW` column computed by `result.apply(lambda r: format_preview(
TEMPLATES.get(r["SMS TEMPLATE"], ""), r), axis=1)`. -/
def previewColumn (tv : String → String) (o : OutDF) : List Cell :=
  (OutDF.rows o).map (fun r => some (format_preview (templatesGet tv (rowCell r "SMS TEMPLATE")) r))

/-- `process_data` from `app.py` — the second, active definition (line 333):
align, normalize the two date columns, overwrite `CYCLE`, derive `BUCKET` and
`WITH CONTACT Y/N`, and render `PREVIEW`.  It never writes `SMS TEMPLATE`. -/
def process_data (tv : String → String) (df : DF) (cycle : String) : OutDF :=
  let result := map_and_align_columns df TARGET_HEADERS
  let result := applyDateCol result "PTP DATE"
  let result := applyDateCol result "TPAP DD"
  let result := OutDF.setCol result "CYCLE" (List.replicate result.idx (some cycle))
  let result := OutDF.setCol result "BUCKET" ((OutDF.getCol result "OB").map calculate_bucket)
  let result := OutDF.setCol result "WITH CONTACT Y/N"
    ((OutDF.getCol result "MOBILE NUMBER").map (fun c => some (check_contact c)))
  OutDF.setCol result "PREVIEW" (previewColumn tv result)

/-- The first, shadowed definition of `process_data` (line 217): identical
except that it derives `SMS TEMPLATE` via `detect_template` when the raw file
has no such column.  At run time the later definition replaces it. -/
def process_data_v1 (tv : String → String) (df : DF) (cycle : String) : OutDF :=
  let result := map_and_align_columns df TARGET_HEADERS
  let result := applyDateCol result "PTP DATE"
  let result := applyDateCol result "TPAP DD"
  let result := OutDF.setCol result "CYCLE" (List.replicate result.idx (some cycle))
  let result := OutDF.setCol result "BUCKET" ((OutDF.getCol result "OB").map calculate_bucket)
  let result := OutDF.setCol result "WITH CONTACT Y/N"
    ((OutDF.getCol result "MOBILE NUMBER").map (fun c => some (check_contact c)))
  let result :=
    if df.cols.any (fun p => p.1 = "SMS TEMPLATE") then result
    else OutDF.setCol result "SMS TEMPLATE" ((OutDF.rows result).map (fun r => some (detect_template r)))
  OutDF.setCol result "PREVIEW" (previewColumn tv result)

/-- A cell as written by `DataFrame.to_csv` (missing becomes empty). -/
def csvCell (c : Cell) : String :=
  match c with
  | none => ""
  | some s => s

/-- Comma-join of character lists. -/
def joinComma : List (List Char) → List Char
  | [] => []
  | [x] => x
  | x :: xs => x ++ ',' :: joinComma xs

/-- Delimited-text serialization of a frame (header row, then data rows). -/
def toCsv (o : OutDF) : String :=
  String.mk (joinComma (o.cols.map (fun p => p.1.data)) ++ '\n' ::
    ((OutDF.rows o).map (fun r =>
      joinComma (r.map (fun p => (csvCell p.2).data)) ++ ['\n'])).flatten)

/-- `df[hs]`: column selection in the given order. -/
def dfSelect (o : OutDF) (hs : List String) : OutDF :=
  ⟨o.idx, hs.map (fun h => (h, OutDF.getCol o h))⟩

/-- The download artifacts offered by the Step-2 export section of `main`
(lines 436-452): two buttons, both serving the full CSV (with `PREVIEW`)
under the same name; the `EXPORT_HEADERS`-restricted CSV is computed but
never offered, and no archive is built. -/
def exportDownloads (o : OutDF) (mainFilename : String) : List (String × String) :=
  let csvFull := toCsv o
  let _csvExport := toCsv (dfSelect o EXPORT_HEADERS)
  [("SMS_FULL_" ++ mainFilename ++ ".csv", csvFull),
   ("SMS_FULL_" ++ mainFilename ++ ".csv", csvFull)]

/-- The artifact-name sanitization stated by the specification for the
template-partitioned exporter (strip characters outside `[A-Za-z0-9 _.-]`);
the exporter itself does not exist in `app.py`. -/
def sanitizeName (s : String) : String :=
  String.mk (s.data.filter (fun ch => ch.isAlphanum ∨ ch = ' ' ∨ ch = '_' ∨ ch = '.' ∨ ch = '-'))

/-- A nonempty pattern that does not occur in a list leaves `replGo`
unchanged, for any fuel. -/
theorem replGo_of_not_sub (pat rep : List Char) :
    ∀ (fuel : Nat) (l : List Char), isSubLC pat l = false → replGo pat rep fuel l = l := by
  intro fuel
  induction fuel with
  | zero => intro l _; cases l <;> rfl
  | succ n ih =>
    intro l h
    cases l with
    | nil => rfl
    | cons a rest =>
      simp only [isSubLC, Bool.or_eq_false_iff] at h
      unfold replGo
      rw [if_neg, ih rest h.2]
      intro hc
      rw [h.1] at hc
      exact Bool.false_ne_true hc.2

/-- A string containing none of the patterns is left verbatim by the
sequential replacement fold. -/
theorem foldl_replace_verbatim :
    ∀ (l : List (String × String)) (t : String),
      (∀ kv ∈ l, containsSub kv.1 t = false) →
      l.foldl (fun acc kv => pyReplace acc kv.1 kv.2) t = t := by
  intro l
  induction l with
  | nil => intro t _; rfl
  | cons kv rest ih =>
    intro t h
    have h1 := h kv (by simp)
    have hrepl : pyReplace t kv.1 kv.2 = t := by
      unfold pyReplace
      rw [replGo_of_not_sub kv.1.data kv.2.data t.data.length t.data h1]
    rw [List.foldl_cons, hrepl]
    exact ih t (fun kv2 hkv2 => h kv2 (List.mem_cons_of_mem _ hkv2))

/-- The eight placeholder tokens of `format_preview`. -/
def previewTokens : List String :=
  ["\x7bCUST_NAME\x7d", "\x7bACC_NO\x7d", "\x7bOB\x7d", "\x7bMPR\x7d",
   "\x7bPDA\x7d", "\x7bTPAP DD\x7d", "\x7bPTP DATE\x7d", "\x7bCYCLE\x7d"]

theorem previewReplacements_fst (r : Row) :
    (previewReplacements r).map Prod.fst = previewTokens := rfl

/-- A template containing no recognized token renders verbatim. -/
theorem format_preview_verbatim (t : String) (r : Row)
    (h : ∀ k ∈ previewTokens, containsSub k t = false) :
    format_preview t r = t := by
  unfold format_preview
  apply foldl_replace_verbatim
  intro kv hkv
  have hfst : kv.1 ∈ previewTokens := by
    rw [← previewReplacements_fst r]
    exact List.mem_map_of_mem Prod.fst hkv
  exact h kv.1 hfst

/-- The empty template renders to the empty string. -/
theorem format_preview_empty (r : Row) : format_preview "" r = "" := rfl

/-- `contactRe` characterized. -/
theorem contactRe_iff (l : List Char) :
    contactRe l = true ↔ ∃ ds, l = '6' :: '3' :: ds ∧ ds.length = 10 ∧ ds.all Char.isDigit := by
  constructor
  · intro h
    rw [contactRe.eq_def] at h
    split at h
    · rename_i rest
      simp only [Bool.and_eq_true, decide_eq_true_eq] at h
      exact ⟨rest, rfl, h.1, h.2⟩
    · exact absurd h (by simp)
  · rintro ⟨ds, rfl, h1, h2⟩
    simp [contactRe, h1, h2]


set_option maxHeartbeats 4000000
set_option maxRecDepth 8000

/-- C6: `check_contact` returns "Y" exactly for a present cell whose stripped
value is the two digits `63` followed by exactly ten digits and nothing else;
everything else (including the missing cell) yields "N".  The spec's four
concrete cases are included. -/
theorem C6_check_contact :
    (∀ c : Cell, check_contact c = "Y" ↔
      ∃ s, c = some s ∧
        ∃ ds, (pyStrip s).data = '6' :: '3' :: ds ∧ ds.length = 10 ∧ ds.all Char.isDigit)
    ∧ check_contact (some "639171234567") = "Y"
    ∧ check_contact (some "09171234567") = "N"
    ∧ check_contact (some "") = "N"
    ∧ check_contact none = "N"
    ∧ check_contact (some "639171234567 ") = "Y" := by
  refine ⟨?_, by decide, by decide, by decide, rfl, by decide⟩
  intro c
  cases c with
  | none =>
    constructor
    · intro h; exact absurd h (by decide)
    · rintro ⟨s, hs, -⟩; exact absurd hs (by simp)
  | some s =>
    rw [show check_contact (some s)
          = if contactRe (pyStrip s).data = true then "Y" else "N" from rfl]
    by_cases h : contactRe (pyStrip s).data = true
    · rw [if_pos h]
      exact ⟨fun _ => ⟨s, rfl, (contactRe_iff _).1 h⟩, fun _ => rfl⟩
    · rw [if_neg h]
      constructor
      · intro hN; exact absurd hN (by decide)
      · rintro ⟨s2, hs2, hds⟩
        injection hs2 with hs2
        subst hs2
        exact absurd ((contactRe_iff _).2 hds) h

/-- The row of the C9 counterexample: its customer name is itself a
placeholder token. -/
def rowC9 : Row := [("CUSTOMER NAME", some "\x7bOB\x7d"), ("OB", some "0")]

/-- C9 counterexample: the claim predicts that rendering the template
consisting of the single placeholder for the customer name yields the row's
customer-name value verbatim; the sequential `str.replace` chain instead
substitutes the injected token again, producing "0.00". -/
theorem C9_counterexample :
    rowStr rowC9 "CUSTOMER NAME" = "\x7bOB\x7d"
    ∧ format_preview "\x7bCUST_NAME\x7d" rowC9 = "0.00"
    ∧ ("0.00" : String) ≠ "\x7bOB\x7d" := ⟨by decide, by decide, by decide⟩

/-- The demonstration row of the C9 amended theorem. -/
def rowDemo : Row :=
  [("CUSTOMER NAME", some "BOB"), ("MPR", some "500"), ("PTP DATE", some "01/05/2024")]

/-- C9 (amended): `format_preview` applies the eight replacements
sequentially, so (1) a template containing no recognized token is returned
verbatim (in particular rendering never fails and unrecognized placeholders
not introduced by substituted values survive untouched), (2) a row whose SMS
TEMPLATE key is missing or not a catalog key renders an empty PREVIEW, and
(3) recognized placeholders are substituted with the row's formatted values,
as demonstrated with an unknown placeholder left verbatim. -/
theorem C9_sequential_rendering :
    (∀ (t : String) (r : Row),
      (∀ k ∈ previewTokens, containsSub k t = false) → format_preview t r = t)
    ∧ (∀ (tv : String → String) (r : Row),
        (match rowCell r "SMS TEMPLATE" with
         | none => True
         | some s => s ∉ TEMPLATE_KEYS) →
        format_preview (templatesGet tv (rowCell r "SMS TEMPLATE")) r = "")
    ∧ format_preview "Hi \x7bCUST_NAME\x7d: \x7bMPR\x7d due \x7bPTP DATE\x7d \x7bFOO\x7d" rowDemo
        = "Hi BOB: 500.00 due 01/05/2024 \x7bFOO\x7d" := by
  refine ⟨fun t r h => format_preview_verbatim t r h, ?_, by decide⟩
  intro tv r h
  cases hc : rowCell r "SMS TEMPLATE" with
  | none => exact format_preview_empty r
  | some s =>
    rw [hc] at h
    have h2 : s ∉ TEMPLATE_KEYS := h
    have hget : templatesGet tv (some s) = "" := by
      simp only [templatesGet]
      rw [if_neg h2]
    rw [hget]
    exact format_preview_empty r

/-- Witness for the C9 amended theorem at a concrete template and row. -/
theorem C9_sequential_rendering_witness :
    (∀ k ∈ previewTokens, containsSub k "Hello world" = false)
    ∧ format_preview "Hello world" ([] : Row) = "Hello world" :=
  ⟨by decide, C9_sequential_rendering.1 "Hello world" [] (by decide)⟩

/-- The four labels producible by `detect_template`. -/
def derivableLabels : List String :=
  ["NO PAYMENT", "WITH MPR ONLY", "WITH PDA ONLY", "WITH BOTH MPR AND PDA"]

/-- C10: none of the four derivable labels is a catalog key, so a row whose
SMS TEMPLATE holds one of them renders an empty PREVIEW. -/
theorem C10_derivable_labels_render_empty :
    (∀ l ∈ derivableLabels, l ∉ TEMPLATE_KEYS)
    ∧ (∀ (tv : String → String) (r : Row) (s : String),
        rowCell r "SMS TEMPLATE" = some s → s ∈ derivableLabels →
        format_preview (templatesGet tv (rowCell r "SMS TEMPLATE")) r = "") := by
  refine ⟨by decide, ?_⟩
  intro tv r s hc hs
  have hnot : s ∉ TEMPLATE_KEYS := by fin_cases hs <;> decide
  rw [hc]
  have hget : templatesGet tv (some s) = "" := by
    simp only [templatesGet]
    rw [if_neg hnot]
  rw [hget]
  exact format_preview_empty r

/-- Witness for C10 at a concrete row carrying the label "NO PAYMENT". -/
theorem C10_witness :
    rowCell [("SMS TEMPLATE", some "NO PAYMENT")] "SMS TEMPLATE" = some "NO PAYMENT"
    ∧ "NO PAYMENT" ∈ derivableLabels
    ∧ format_preview
        (templatesGet (fun _ => "catalog text")
          (rowCell [("SMS TEMPLATE", some "NO PAYMENT")] "SMS TEMPLATE"))
        [("SMS TEMPLATE", some "NO PAYMENT")] = "" :=
  ⟨rfl, by decide,
    C10_derivable_labels_render_empty.2 (fun _ => "catalog text")
      [("SMS TEMPLATE", some "NO PAYMENT")] "NO PAYMENT" rfl (by decide)⟩

/-- C5 counterexample: the claim (following the spec boundary list) states
that OB = 99999.99 is classified "6K - 49K"; the code classifies every value
in [50000, 100000) as "50K - 99K", and 99999.99 is such a value. -/
theorem C5_counterexample :
    calculate_bucket (some "99999.99") = some "50K - 99K"
    ∧ (some "50K - 99K" : Cell) ≠ some "6K - 49K" := ⟨by decide, by decide⟩

/-- C5 (amended): `calculate_bucket` classifies the cleaned numeric OB by
closed lower bounds evaluated highest-first; unparseable, `nan` and negative
values yield the missing marker; the corrected boundary cases hold
(99999.99 lands in "50K - 99K", covered by `C5_counterexample`). -/
theorem C5_bucket_classification :
    (∀ c : Cell, bucketVal c = none → calculate_bucket c = none)
    ∧ (∀ c : Cell, bucketVal c = some PyFloat.nan → calculate_bucket c = none)
    ∧ (∀ (c : Cell) (q : ℚ), bucketVal c = some (PyFloat.fin q) →
        ((100000 ≤ q → calculate_bucket c = some "100K and up")
         ∧ (50000 ≤ q → q < 100000 → calculate_bucket c = some "50K - 99K")
         ∧ (6000 ≤ q → q < 50000 → calculate_bucket c = some "6K - 49K")
         ∧ (0 ≤ q → q < 6000 → calculate_bucket c = some "0 - 5K")
         ∧ (q < 0 → calculate_bucket c = none)))
    ∧ calculate_bucket (some "100000") = some "100K and up"
    ∧ calculate_bucket (some "49999.99") = some "6K - 49K"
    ∧ calculate_bucket (some "5999.99") = some "0 - 5K"
    ∧ calculate_bucket (some "6000") = some "6K - 49K"
    ∧ calculate_bucket (some "-3") = none := by
  refine ⟨?_, ?_, ?_, by decide, by decide, by decide, by decide, by decide⟩
  · intro c h
    unfold calculate_bucket
    rw [h]
  · intro c h
    unfold calculate_bucket
    rw [h]
  · intro c q hq
    have hcb : calculate_bucket c =
        (if (100000 : ℚ) ≤ q then some "100K and up"
         else if (50000 : ℚ) ≤ q then some "50K - 99K"
         else if (6000 : ℚ) ≤ q then some "6K - 49K"
         else if (0 : ℚ) ≤ q then some "0 - 5K" else none) := by
      unfold calculate_bucket
      rw [hq]
      simp [PyFloat.geQ]
    refine ⟨?_, ?_, ?_, ?_, ?_⟩
    · intro h1
      rw [hcb, if_pos h1]
    · intro h1 h2
      rw [hcb, if_neg (by linarith), if_pos h1]
    · intro h1 h2
      rw [hcb, if_neg (by linarith), if_neg (by linarith), if_pos h1]
    · intro h1 h2
      rw [hcb, if_neg (by linarith), if_neg (by linarith), if_neg (by linarith), if_pos h1]
    · intro h1
      rw [hcb, if_neg (by linarith), if_neg (by linarith), if_neg (by linarith),
        if_neg (by linarith)]

/-- Witness for the C5 amended theorem at OB = 150000. -/
theorem C5_bucket_classification_witness :
    bucketVal (some "150000") = some (PyFloat.fin 150000)
    ∧ (100000 : ℚ) ≤ 150000
    ∧ calculate_bucket (some "150000") = some "100K and up" :=
  ⟨by decide, by decide,
    (C5_bucket_classification.2.2.1 (some "150000") 150000 (by decide)).1 (by decide)⟩

/-- Wording of the claim for C4: a value consisting purely of digits,
optionally with a decimal fraction (any fraction digits).  The code instead
requires the fraction digits to be all zeros. -/
def claimSerialShape (s : String) : Bool :=
  let l := s.data
  let ds := leadDigits l
  (!ds.isEmpty) && ((l.drop ds.length).isEmpty ||
    (match l.drop ds.length with
     | '.' :: fr => (!fr.isEmpty) && fr.all Char.isDigit
     | _ => false))

/-- Shape test for the `MM/DD/YYYY` output format named by the claim. -/
def isMMDDYYYY (s : String) : Bool :=
  match splitOnChar '/' s.data with
  | [ms, ds, ys] =>
    ms.length = 2 ∧ ds.length = 2 ∧ ys.length = 4 ∧ (ms ++ ds ++ ys).all Char.isDigit
  | _ => false

/-- C4 counterexample: "44927.5" is purely digits with a decimal fraction
and numerically greater than 31, so the claim requires a serial-date
conversion to an `MM/DD/YYYY` string; the code, whose serial regex only
accepts an all-zero fraction, returns the token "44927.5" verbatim. -/
theorem C4_counterexample :
    claimSerialShape "44927.5" = true
    ∧ 31 < digitsToNat (leadDigits "44927.5".data)
    ∧ format_excel_text_date (some "44927.5") = "44927.5"
    ∧ isMMDDYYYY "44927.5" = false := ⟨by decide, by decide, by decide, by decide⟩

/-- The generic-parse tail returns a formatted date or the first token. -/
theorem genericDatePhase_shape (s : String) :
    (∃ d, genericDatePhase s = fmtDate d) ∨ genericDatePhase s = firstToken s := by
  unfold genericDatePhase
  cases hp : pdParseDate s with
  | some d => exact Or.inl ⟨d, rfl⟩
  | none =>
    cases hp2 : pdParseDate (firstToken s) with
    | some d => exact Or.inl ⟨d, rfl⟩
    | none => exact Or.inr rfl

/-- C4 (amended): the resolution order of `format_excel_text_date` —
missing/blank to ""; an all-digit value (optionally a decimal fraction made
of zeros) greater than 31 becomes a day-count offset from 1899-12-30 when
representable; otherwise the general parse of the full string, then of the
first whitespace token, then the first token verbatim; and every output is
the empty string, a formatted calendar date, or the first token. -/
theorem C4_date_resolution :
    (format_excel_text_date none = "")
    ∧ (∀ v, pyStrip v = "" → format_excel_text_date (some v) = "")
    ∧ (∀ v n, pyStrip v ≠ "" → parseSerial (pyStrip v) = some n → 31 < n → n ≤ maxSerial →
        format_excel_text_date (some v) = fmtDate (civilFromDays ((n : Int) - 25569)))
    ∧ (∀ v, pyStrip v ≠ "" →
        (parseSerial (pyStrip v) = none ∨
          ∃ n, parseSerial (pyStrip v) = some n ∧ (n ≤ 31 ∨ maxSerial < n)) →
        format_excel_text_date (some v) = genericDatePhase (pyStrip v))
    ∧ (∀ s d, pdParseDate s = some d → genericDatePhase s = fmtDate d)
    ∧ (∀ s d, pdParseDate s = none → pdParseDate (firstToken s) = some d →
        genericDatePhase s = fmtDate d)
    ∧ (∀ s, pdParseDate s = none → pdParseDate (firstToken s) = none →
        genericDatePhase s = firstToken s)
    ∧ (∀ c : Cell, format_excel_text_date c = ""
        ∨ (∃ d, format_excel_text_date c = fmtDate d)
        ∨ (∃ v, c = some v ∧ format_excel_text_date c = firstToken (pyStrip v))) := by
  refine ⟨rfl, ?_, ?_, ?_, ?_, ?_, ?_, ?_⟩
  · intro v h
    simp only [format_excel_text_date]
    rw [if_pos h]
  · intro v n h1 h2 h3 h4
    simp only [format_excel_text_date]
    rw [if_neg h1]
    have hser : serialToDate n = some (civilFromDays ((n : Int) - 25569)) := by
      unfold serialToDate
      rw [if_pos h4]
    simp only [h2]
    rw [if_pos h3]
    simp only [hser]
  · intro v h1 hd
    simp only [format_excel_text_date]
    rw [if_neg h1]
    rcases hd with hn | ⟨n, hn, hle | hgt⟩
    · simp only [hn]
    · simp only [hn]
      rw [if_neg (by omega)]
    · have h31 : 31 < n := by
        unfold maxSerial at hgt
        omega
      have hser : serialToDate n = none := by
        unfold serialToDate
        rw [if_neg (by omega)]
      simp only [hn]
      rw [if_pos h31]
      simp only [hser]
  · intro s d h
    unfold genericDatePhase
    simp only [h]
  · intro s d h1 h2
    unfold genericDatePhase
    simp only [h1, h2]
  · intro s h1 h2
    unfold genericDatePhase
    simp only [h1, h2]
  · intro c
    cases c with
    | none => exact Or.inl rfl
    | some v =>
      simp only [format_excel_text_date]
      by_cases hv : pyStrip v = ""
      · rw [if_pos hv]
        exact Or.inl rfl
      · rw [if_neg hv]
        have hgen : (∃ d, genericDatePhase (pyStrip v) = fmtDate d)
            ∨ genericDatePhase (pyStrip v) = firstToken (pyStrip v) :=
          genericDatePhase_shape (pyStrip v)
        cases hps : parseSerial (pyStrip v) with
        | none =>
          simp only []
          rcases hgen with ⟨d, hd⟩ | hd
          · exact Or.inr (Or.inl ⟨d, hd⟩)
          · exact Or.inr (Or.inr ⟨v, rfl, hd⟩)
        | some n =>
          simp only []
          by_cases h31 : 31 < n
          · rw [if_pos h31]
            cases hser : serialToDate n with
            | some d => exact Or.inr (Or.inl ⟨d, rfl⟩)
            | none =>
              simp only []
              rcases hgen with ⟨d, hd⟩ | hd
              · exact Or.inr (Or.inl ⟨d, hd⟩)
              · exact Or.inr (Or.inr ⟨v, rfl, hd⟩)
          · rw [if_neg h31]
            rcases hgen with ⟨d, hd⟩ | hd
            · exact Or.inr (Or.inl ⟨d, hd⟩)
            · exact Or.inr (Or.inr ⟨v, rfl, hd⟩)

/-- Witness for the C4 amended theorem: serial "44927" is 2023-01-01. -/
theorem C4_date_resolution_witness :
    pyStrip "44927" ≠ ""
    ∧ parseSerial (pyStrip "44927") = some 44927
    ∧ 31 < 44927
    ∧ 44927 ≤ maxSerial
    ∧ format_excel_text_date (some "44927") = fmtDate (civilFromDays ((44927 : Int) - 25569))
    ∧ fmtDate (civilFromDays ((44927 : Int) - 25569)) = "01/01/2023" :=
  ⟨by decide, by decide, by decide, by decide,
    C4_date_resolution.2.2.1 "44927" 44927 (by decide) (by decide) (by decide) (by decide),
    by decide⟩

/-- A regex word character (`\w`): alphanumeric or underscore. -/
def wordCharB (ch : Char) : Bool :=
  ch.isAlphanum || ch = '_'

/-- Wording of the claim for C7: at position `i` the letter C (either case)
followed by one to four digits, bounded on both sides by non-word characters
or the ends of the string.  The code imposes no boundaries and captures at
most three digits. -/
def claimCycleTokenAt (l : List Char) (i : Nat) : Bool :=
  (decide (i = 0) || !wordCharB (l.getD (i - 1) ' '))
  && (decide (l.getD i ' ' = 'c') || decide (l.getD i ' ' = 'C'))
  && (let run := leadDigits (l.drop (i + 1))
      decide (1 ≤ run.length) && decide (run.length ≤ 4)
      && (decide (l.drop (i + 1 + run.length) = [])
          || !wordCharB ((l.drop (i + 1 + run.length)).headD ' ')))

/-- Does the filename contain a token of the shape the claim describes? -/
def claimHasCycleToken (s : String) : Bool :=
  (List.range s.data.length).any (fun i => claimCycleTokenAt s.data i)

/-- C7 counterexample: in "XC1234Y" no C-digits occurrence is bounded by
non-word characters (X and Y are word characters) and the digit run has four
digits, so the claim demands the empty string; `re.search(r"c(\d\x7b1,3\x7d)")`
has no boundary requirement and captures at most three digits, giving "123". -/
theorem C7_counterexample :
    detect_cycle_from_filename "XC1234Y" = "123"
    ∧ claimHasCycleToken "XC1234Y" = false
    ∧ ("123" : String) ≠ "" := ⟨by decide, by decide, by decide⟩

/-- Position `i` starts a match of `c(\d\x7b1,3\x7d)` (case-insensitive):
the letter followed by at least one digit. -/
def cycleMatchAt (l : List Char) (i : Nat) : Bool :=
  match l.drop i with
  | [] => false
  | a :: rest => (a = 'c' ∨ a = 'C') ∧ digitsTake3 rest ≠ []

/-- Index-based statement of the amended claim: the capture of the first
position where a C is immediately followed by a digit, taking greedily up to
three digits; empty when no position matches. -/
def cycleSpec (s : String) : String :=
  match (List.range s.data.length).find? (fun i => cycleMatchAt s.data i) with
  | some i => String.mk (digitsTake3 (s.data.drop (i + 1)))
  | none => ""

/-- The scanning search agrees with the first-matching-index description. -/
theorem searchCycle_eq (l : List Char) :
    searchCycle l = ((List.range l.length).find? (fun i => cycleMatchAt l i)).map
      (fun i => digitsTake3 (l.drop (i + 1))) := by
  induction l with
  | nil => rfl
  | cons a rest ih =>
    rw [List.length_cons, List.range_succ_eq_map, List.find?_cons]
    by_cases h0 : cycleMatchAt (a :: rest) 0 = true
    · have hcond : ((a = 'c' ∨ a = 'C') ∧ digitsTake3 rest ≠ []) := by
        have h1 := of_decide_eq_true h0
        exact h1
      rw [h0]
      unfold searchCycle
      rw [if_pos hcond]
      rfl
    · rw [Bool.not_eq_true] at h0
      rw [h0]
      unfold searchCycle
      rw [if_neg (fun hc => by
        have h1 : decide ((a = 'c' ∨ a = 'C') ∧ digitsTake3 rest ≠ []) = false := h0
        exact absurd hc (of_decide_eq_false h1))]
      rw [ih, List.find?_map, Option.map_map]
      rfl

/-- C7 (amended): `detect_cycle_from_filename` returns the digits (greedily,
at most three) following the first case-insensitive C that is immediately
followed by a digit, with no word-boundary requirement, and the empty string
when there is none; the spec example still yields "21". -/
theorem C7_cycle_detection :
    (∀ s, detect_cycle_from_filename s = cycleSpec s)
    ∧ detect_cycle_from_filename "BPI_XDAYS_C21_HEADER_ALIGNED_10-21-2025.csv" = "21"
    ∧ detect_cycle_from_filename "NO_TOKEN_HERE" = "" := by
  refine ⟨?_, by decide, by decide⟩
  intro s
  unfold detect_cycle_from_filename cycleSpec
  by_cases hs : s = ""
  · subst hs; rfl
  · rw [if_neg hs, searchCycle_eq]
    cases hf : (List.range s.data.length).find? (fun i => cycleMatchAt s.data i) with
    | some i => rfl
    | none => rfl

/-- Updating the value of key `k2` in place changes only that lookup. -/
theorem dictFind_map_update (d : List (String × String)) (k2 v2 k : String) :
    dictFind (d.map (fun p => if p.1 = k2 then (k2, v2) else p)) k
      = if k = k2 then (dictFind d k).map (fun _ => v2) else dictFind d k := by
  induction d with
  | nil => by_cases hk : k = k2 <;> simp [dictFind, hk]
  | cons p rest ih =>
    by_cases hp : p.1 = k2
    · by_cases hk : k = k2
      · subst hk
        simp [dictFind, List.find?_cons, hp, ih]
      · have hpk : p.1 ≠ k := by rw [hp]; exact fun h2 => hk h2.symm
        have hk2 : k2 ≠ k := fun h2 => hk h2.symm
        have ih2 := ih
        simp only [dictFind, List.find?_map, Option.map_map, if_neg hk] at ih2
        simp [dictFind, List.find?_cons, hp, hpk, hk2, hk]
        exact ih2
    · by_cases hpk : p.1 = k
      · by_cases hk : k = k2
        · exact absurd (hpk.trans hk) hp
        · simp [dictFind, List.find?_cons, hp, hpk, ih, hk]
      · by_cases hk : k = k2
        · subst hk
          have ih2 := ih
          simp only [dictFind, List.find?_map, Option.map_map, if_pos rfl] at ih2
          simp [dictFind, List.find?_cons, hp, hpk]
          exact ih2
        · have ih2 := ih
          simp only [dictFind, List.find?_map, Option.map_map, if_neg hk] at ih2
          simp [dictFind, List.find?_cons, hp, hpk, hk]
          exact ih2

/-- Lookup in an appended association list prefers the left part. -/
theorem dictFind_append (d1 d2 : List (String × String)) (k : String) :
    dictFind (d1 ++ d2) k
      = match dictFind d1 k with
        | some v => some v
        | none => dictFind d2 k := by
  unfold dictFind
  rw [List.find?_append]
  cases h : d1.find? (fun p => p.1 = k) with
  | some p => rfl
  | none => rfl

/-- A key present somewhere in the list is found. -/
theorem dictFind_any_isSome (d : List (String × String)) (k : String)
    (h : d.any (fun p => p.1 = k) = true) : (dictFind d k).isSome := by
  unfold dictFind
  rcases List.any_eq_true.mp h with ⟨p, hp, hpk⟩
  have hfs : (d.find? (fun p => p.1 = k)).isSome := List.find?_isSome.mpr ⟨p, hp, hpk⟩
  cases hf : d.find? (fun p => p.1 = k) with
  | none => rw [hf] at hfs; exact absurd hfs (by simp)
  | some q => rfl

/-- Dict insertion: lookups of the inserted key see the new value, all other
lookups are unchanged. -/
theorem dictFind_insert (d : List (String × String)) (k2 v2 k : String) :
    dictFind (dictInsert d k2 v2) k = if k = k2 then some v2 else dictFind d k := by
  unfold dictInsert
  by_cases hany : d.any (fun p => p.1 = k2) = true
  · rw [if_pos hany, dictFind_map_update]
    by_cases hk : k = k2
    · subst hk
      rw [if_pos rfl, if_pos rfl]
      obtain ⟨v, hv⟩ := Option.isSome_iff_exists.mp (dictFind_any_isSome d k hany)
      rw [hv]
      rfl
    · rw [if_neg hk, if_neg hk]
  · rw [if_neg hany, dictFind_append]
    by_cases hk : k = k2
    · subst hk
      have hnone : dictFind d k = none := by
        cases hd : dictFind d k with
        | none => rfl
        | some v =>
          exfalso
          apply hany
          unfold dictFind at hd
          cases hf : d.find? (fun p => p.1 = k) with
          | none => rw [hf] at hd; exact absurd hd (by simp)
          | some p =>
            have hps := List.find?_some hf
            exact List.any_eq_true.mpr ⟨p, List.mem_of_find?_eq_some hf, hps⟩
      rw [hnone]
      simp [dictFind]
    · cases hd : dictFind d k with
      | some v => simp [hd, hk]
      | none =>
        have hk2 : k2 ≠ k := fun h2 => hk h2.symm
        simp [hd, hk, dictFind, hk2]

/-- Folding dict insertions of `(normalize c, c)`: the lookup of `k` is the
last source header normalizing to `k`, else whatever the accumulator held. -/
theorem dictFind_fold (ex : List String) :
    ∀ (d : List (String × String)) (k : String),
      dictFind (ex.foldl (fun d c => dictInsert d (normalize c) c) d) k
        = match ex.reverse.find? (fun c => normalize c = k) with
          | some c => some c
          | none => dictFind d k := by
  induction ex with
  | nil => intro d k; rfl
  | cons c rest ih =>
    intro d k
    rw [List.foldl_cons, ih, List.reverse_cons, List.find?_append]
    cases hf : rest.reverse.find? (fun c => normalize c = k) with
    | some c2 => rfl
    | none =>
      simp only [Option.none_or]
      rw [dictFind_insert]
      by_cases hk : normalize c = k
      · have hd : List.find? (fun c2 => normalize c2 = k) [c] = some c := by
          simp [List.find?_cons, hk]
        rw [hd, if_pos hk.symm]
      · have hd : List.find? (fun c2 => normalize c2 = k) [c] = none := by
          simp [List.find?_cons, hk]
        rw [hd, if_neg (fun h2 => hk h2.symm)]

/-- `normalized_existing[k]` is the last source header normalizing to `k`. -/
theorem dictFind_normalizedExisting (ex : List String) (k : String) :
    dictFind (normalizedExisting ex) k = ex.reverse.find? (fun c => normalize c = k) := by
  unfold normalizedExisting
  rw [dictFind_fold]
  cases hf : ex.reverse.find? (fun c => normalize c = k) with
  | some c => rfl
  | none => rfl

/-- A dict hit comes from the header set and normalizes to the key. -/
theorem dictFind_mem (ex : List String) (k c : String)
    (h : dictFind (normalizedExisting ex) k = some c) : c ∈ ex ∧ normalize c = k := by
  rw [dictFind_normalizedExisting] at h
  have hps := List.find?_some h
  exact ⟨List.mem_reverse.mp (List.mem_of_find?_eq_some h), of_decide_eq_true hps⟩

/-- The dict has key `k` exactly when some source header normalizes to it. -/
theorem dictFind_isSome_iff (ex : List String) (k : String) :
    (dictFind (normalizedExisting ex) k).isSome ↔ ∃ c ∈ ex, normalize c = k := by
  rw [dictFind_normalizedExisting, List.find?_isSome]
  constructor
  · rintro ⟨c, hc, hck⟩
    exact ⟨c, List.mem_reverse.mp hc, of_decide_eq_true hck⟩
  · rintro ⟨c, hc, hck⟩
    exact ⟨c, List.mem_reverse.mpr hc, decide_eq_true hck⟩

/-- A canonical field with no alias entry has the empty alias list. -/
theorem aliasStrings_of_not_hasAliases (target : String) (h : ¬ hasAliases target = true) :
    aliasStrings target = [] := by
  unfold hasAliases at h
  unfold aliasStrings
  cases hf : HEADER_ALIASES.find? (fun p => p.1 = target) with
  | some p => rw [hf] at h; exact absurd rfl h
  | none => rfl

/-- `detectColumn` in direct/alias/fuzzy cascade form (the alias branch of a
field without an alias entry is vacuous). -/
theorem detectColumn_eq (target : String) (existing : List String) :
    detectColumn target existing =
      match dictFind (normalizedExisting existing) (normalize target) with
      | some c => some c
      | none =>
        match (aliasStrings target).findSome?
            (fun a => dictFind (normalizedExisting existing) (normalize a)) with
        | some c => some c
        | none => existing.find? (fun c => fuzzyMatches target c) := by
  simp only [detectColumn]
  by_cases h : hasAliases target = true
  · rw [if_pos h]
  · rw [if_neg h, aliasStrings_of_not_hasAliases target h]
    rfl

/-- C8: header-matching precedence.  When a direct match (normalized
equality) exists the result is a direct match; when none exists but an alias
match does, the result is an alias match; with neither, the result is exactly
the first fuzzy-containment header in original column order (and `none`,
marking the field unresolved, when no rule matches). -/
theorem C8_matching_precedence :
    ∀ (target : String) (existing : List String),
      ((∃ c ∈ existing, normalize c = normalize target) →
        ∃ c ∈ existing, normalize c = normalize target
          ∧ detectColumn target existing = some c)
      ∧ ((¬ ∃ c ∈ existing, normalize c = normalize target) →
          (∃ a ∈ aliasStrings target, ∃ c ∈ existing, normalize c = normalize a) →
          ∃ c ∈ existing, (∃ a ∈ aliasStrings target, normalize c = normalize a)
            ∧ detectColumn target existing = some c)
      ∧ ((¬ ∃ c ∈ existing, normalize c = normalize target) →
          (¬ ∃ a ∈ aliasStrings target, ∃ c ∈ existing, normalize c = normalize a) →
          detectColumn target existing = existing.find? (fun c => fuzzyMatches target c)) := by
  intro target existing
  refine ⟨?_, ?_, ?_⟩
  · intro hdir
    have hs : (dictFind (normalizedExisting existing) (normalize target)).isSome :=
      (dictFind_isSome_iff existing (normalize target)).mpr hdir
    obtain ⟨c, hc⟩ := Option.isSome_iff_exists.mp hs
    have hm := dictFind_mem existing (normalize target) c hc
    refine ⟨c, hm.1, hm.2, ?_⟩
    rw [detectColumn_eq]
    simp only [hc]
  · intro hnd hal
    have hnone : dictFind (normalizedExisting existing) (normalize target) = none := by
      cases hf : dictFind (normalizedExisting existing) (normalize target) with
      | none => rfl
      | some c =>
        have hm := dictFind_mem existing (normalize target) c hf
        exact absurd ⟨c, hm.1, hm.2⟩ hnd
    obtain ⟨a, ha, c, hc, hnc⟩ := hal
    have hne : (aliasStrings target).findSome?
        (fun a => dictFind (normalizedExisting existing) (normalize a)) ≠ none := by
      intro hfn
      rw [List.findSome?_eq_none_iff] at hfn
      have hz := hfn a ha
      have hs : (dictFind (normalizedExisting existing) (normalize a)).isSome :=
        (dictFind_isSome_iff existing (normalize a)).mpr ⟨c, hc, hnc⟩
      rw [hz] at hs
      exact absurd hs (by simp)
    obtain ⟨c2, hc2⟩ := Option.ne_none_iff_exists'.mp hne
    obtain ⟨a3, ha3, hfa3⟩ := List.exists_of_findSome?_eq_some hc2
    have hm := dictFind_mem existing (normalize a3) c2 hfa3
    refine ⟨c2, hm.1, ⟨a3, ha3, hm.2⟩, ?_⟩
    rw [detectColumn_eq]
    simp only [hnone, hc2]
  · intro hnd hnal
    have hnone : dictFind (normalizedExisting existing) (normalize target) = none := by
      cases hf : dictFind (normalizedExisting existing) (normalize target) with
      | none => rfl
      | some c =>
        have hm := dictFind_mem existing (normalize target) c hf
        exact absurd ⟨c, hm.1, hm.2⟩ hnd
    have hfs : (aliasStrings target).findSome?
        (fun a => dictFind (normalizedExisting existing) (normalize a)) = none := by
      rw [List.findSome?_eq_none_iff]
      intro a ha
      cases hfa : dictFind (normalizedExisting existing) (normalize a) with
      | none => rfl
      | some c =>
        have hm := dictFind_mem existing (normalize a) c hfa
        exact absurd ⟨a, ha, c, hm.1, hm.2⟩ hnal
    rw [detectColumn_eq]
    simp only [hnone, hfs]

/-- Witness for C8: "LOANNUMBER" is a direct match for LOAN NUMBER. -/
theorem C8_matching_precedence_witness :
    (∃ c ∈ ["Loan_No.", "LOANNUMBER"], normalize c = normalize "LOAN NUMBER")
    ∧ ∃ c ∈ ["Loan_No.", "LOANNUMBER"], normalize c = normalize "LOAN NUMBER"
        ∧ detectColumn "LOAN NUMBER" ["Loan_No.", "LOANNUMBER"] = some c :=
  ⟨by decide, (C8_matching_precedence "LOAN NUMBER" ["Loan_No.", "LOANNUMBER"]).1 (by decide)⟩

/-- Does the canonical field resolve to some source column of this file? -/
def resolvedB (df : DF) (t : String) : Bool :=
  (detectColumn t (DF.headers df)).isSome

/-- The content the alignment gives a canonical field, for final index
length `N`: the (re-aligned) source column when resolved, an all-missing
column otherwise. -/
def targetFill (df : DF) (N : Nat) (t : String) : List Cell :=
  match detectColumn t (DF.headers df) with
  | some c => reindexCol (dfColumn df c) N
  | none => List.replicate N none

/-- The index length `out` ends with: the input row count `n` once any
resolved (nonempty) series has been assigned, and zero otherwise — scalar
`pd.NA` assignments never grow an empty index. -/
def alignN (df : DF) (n : Nat) (ts : List String) : Nat :=
  if ts.any (resolvedB df) ∧ 0 < n then n else 0

/-- A detected column is one of the source headers. -/
theorem detectColumn_mem (t : String) (ex : List String) (c : String)
    (h : detectColumn t ex = some c) : c ∈ ex := by
  rw [detectColumn_eq] at h
  cases hd : dictFind (normalizedExisting ex) (normalize t) with
  | some c2 =>
    rw [hd] at h
    have h2 : c2 = c := by injection h
    exact h2 ▸ (dictFind_mem ex (normalize t) c2 hd).1
  | none =>
    rw [hd] at h
    cases ha : (aliasStrings t).findSome? (fun a => dictFind (normalizedExisting ex) (normalize a)) with
    | some c2 =>
      rw [ha] at h
      have h2 : c2 = c := by injection h
      obtain ⟨a, _, hfa⟩ := List.exists_of_findSome?_eq_some ha
      exact h2 ▸ (dictFind_mem ex (normalize a) c2 hfa).1
    | none =>
      rw [ha] at h
      exact List.mem_of_find?_eq_some h

/-- Every column of a valid table has the table row count. -/
theorem dfColumn_length (df : DF) (n : Nat) (hcols : ∀ p ∈ df.cols, p.2.length = n)
    (c : String) (hc : c ∈ DF.headers df) : (dfColumn df c).length = n := by
  unfold DF.headers at hc
  obtain ⟨p, hp, hpc⟩ := List.mem_map.mp hc
  have hs : (df.cols.find? (fun q => q.1 = c)).isSome :=
    List.find?_isSome.mpr ⟨p, hp, by rw [hpc]; simp⟩
  unfold dfColumn
  cases hf : df.cols.find? (fun q => q.1 = c) with
  | none => rw [hf] at hs; exact absurd hs (by simp)
  | some q => exact hcols q (List.mem_of_find?_eq_some hf)

/-- Re-aligning a column to its own length is the identity. -/
theorem reindexCol_self (col : List Cell) (n : Nat) (h : col.length = n) :
    reindexCol col n = col := by
  unfold reindexCol
  rw [← h, List.take_length]
  simp

/-- Re-aligning an empty column fills with the missing marker. -/
theorem reindexCol_nil (n : Nat) : reindexCol [] n = List.replicate n none := by
  unfold reindexCol
  simp

/-- Series assignment to a frame with an empty index adopts the series
index and re-aligns the existing columns (pandas `_ensure_valid_index`). -/
theorem assignSeries_fresh (o : OutDF) (t : String) (v : List Cell)
    (h0 : o.idx = 0) (hv : v.length ≠ 0) :
    assignSeries o t v
      = ⟨v.length, o.cols.map (fun p => (p.1, reindexCol p.2 v.length)) ++ [(t, v)]⟩ := by
  unfold assignSeries
  rw [if_pos ⟨h0, hv⟩]

/-- Series assignment to a frame with an established (or matching empty)
index aligns the series to that index. -/
theorem assignSeries_aligned (o : OutDF) (t : String) (v : List Cell)
    (h : ¬(o.idx = 0 ∧ v.length ≠ 0)) :
    assignSeries o t v = ⟨o.idx, o.cols ++ [(t, reindexCol v o.idx)]⟩ := by
  unfold assignSeries
  rw [if_neg h]

/-- One alignment step preserves the closed form of the output frame. -/
theorem align_step_char (df : DF) (n : Nat) (hcols : ∀ p ∈ df.cols, p.2.length = n)
    (done : List String) (t : String) :
    alignStep df
        ⟨alignN df n done, done.map (fun t2 => (t2, targetFill df (alignN df n done) t2))⟩ t
      = ⟨alignN df n (done ++ [t]),
         (done ++ [t]).map (fun t2 => (t2, targetFill df (alignN df n (done ++ [t])) t2))⟩ := by
  cases hdet : detectColumn t (DF.headers df) with
  | none =>
    have heq : alignN df n (done ++ [t]) = alignN df n done := by
      unfold alignN
      rw [List.any_append]
      simp [resolvedB, hdet]
    rw [heq]
    simp only [alignStep, hdet, assignNA]
    rw [List.map_append]
    simp [targetFill, hdet]
  | some c =>
    have hmem : c ∈ DF.headers df := detectColumn_mem t (DF.headers df) c hdet
    have hlen : (dfColumn df c).length = n := dfColumn_length df n hcols c hmem
    have hany : (done ++ [t]).any (resolvedB df) = true := by
      rw [List.any_append]
      simp [resolvedB, hdet]
    have hstep0 : alignStep df
        ⟨alignN df n done, done.map (fun t2 => (t2, targetFill df (alignN df n done) t2))⟩ t
        = assignSeries
            ⟨alignN df n done, done.map (fun t2 => (t2, targetFill df (alignN df n done) t2))⟩
            t (dfColumn df c) := by
      simp [alignStep, hdet]
    rw [hstep0]
    by_cases hn : 0 < n
    · have hNN : alignN df n (done ++ [t]) = n := by
        unfold alignN
        rw [hany]
        simp [hn]
      by_cases hN : alignN df n done = 0
      · have hdone : done.any (resolvedB df) = false := by
          by_contra hcon
          rw [Bool.not_eq_false] at hcon
          have hx : alignN df n done = n := by unfold alignN; rw [hcon]; simp [hn]
          omega
        have hunres : ∀ t2 ∈ done, detectColumn t2 (DF.headers df) = none := by
          intro t2 ht2
          cases hd2 : detectColumn t2 (DF.headers df) with
          | none => rfl
          | some c2 =>
            exfalso
            have hx : done.any (resolvedB df) = true :=
              List.any_eq_true.mpr ⟨t2, ht2, by simp [resolvedB, hd2]⟩
            rw [hdone] at hx
            exact Bool.false_ne_true hx
        rw [assignSeries_fresh _ _ _ hN (by omega)]
        dsimp only
        rw [hNN, hlen]
        simp only [OutDF.mk.injEq, true_and]
        rw [List.map_map, List.map_append]
        congr 1
        · apply List.map_congr_left
          intro t2 ht2
          simp only [Function.comp]
          rw [hN]
          have ht2f : targetFill df 0 t2 = [] := by
            unfold targetFill
            rw [hunres t2 ht2]
            rfl
          have ht2g : targetFill df n t2 = List.replicate n none := by
            unfold targetFill
            rw [hunres t2 ht2]
          rw [ht2f, ht2g, reindexCol_nil]
        · simp [targetFill, hdet, reindexCol_self (dfColumn df c) n hlen]
      · have hNn : alignN df n done = n := by
          unfold alignN at hN ⊢
          by_cases hc2 : done.any (resolvedB df) ∧ 0 < n
          · rw [if_pos hc2]
          · rw [if_neg hc2] at hN
            exact absurd rfl hN
        have hNN2 : alignN df n (done ++ [t]) = n := by
          unfold alignN
          rw [hany]
          simp [hn]
        rw [assignSeries_aligned _ _ _ (fun hcc => absurd hcc.1 hN)]
        dsimp only
        rw [hNn, hNN2, List.map_append]
        simp [targetFill, hdet]
    · have hn0 : n = 0 := by omega
      subst hn0
      have hN0 : alignN df 0 done = 0 := by unfold alignN; simp
      have hNN0 : alignN df 0 (done ++ [t]) = 0 := by unfold alignN; simp
      rw [assignSeries_aligned _ _ _ (fun hcc => absurd hlen hcc.2)]
      dsimp only
      rw [hN0, hNN0, List.map_append]
      simp [targetFill, hdet]

/-- The alignment fold in closed form, for any processed prefix. -/
theorem align_fold (df : DF) (n : Nat) (hcols : ∀ p ∈ df.cols, p.2.length = n) :
    ∀ (rest done : List String),
      List.foldl (alignStep df)
        ⟨alignN df n done, done.map (fun t2 => (t2, targetFill df (alignN df n done) t2))⟩ rest
      = ⟨alignN df n (done ++ rest),
         (done ++ rest).map (fun t2 => (t2, targetFill df (alignN df n (done ++ rest)) t2))⟩ := by
  intro rest
  induction rest with
  | nil => intro done; simp
  | cons t rest2 ih =>
    intro done
    rw [List.foldl_cons, align_step_char df n hcols done t, ih (done ++ [t])]
    simp

/-- `map_and_align_columns` in closed form: the index length is `alignN` and
every canonical field carries its `targetFill` column. -/
theorem map_and_align_char (df : DF) (n : Nat) (hcols : ∀ p ∈ df.cols, p.2.length = n)
    (ts : List String) :
    map_and_align_columns df ts
      = ⟨alignN df n ts, ts.map (fun t => (t, targetFill df (alignN df n ts) t))⟩ := by
  unfold map_and_align_columns
  have h := align_fold df n hcols ts []
  simpa using h

/-- A re-aligned column has exactly the index length. -/
theorem reindexCol_length (col : List Cell) (m : Nat) : (reindexCol col m).length = m := by
  unfold reindexCol
  rw [List.length_append, List.length_take, List.length_replicate]
  omega

/-- C2 counterexample: a one-row table whose only header "ZZZ" resolves no
canonical field.  Every target is assigned as a scalar missing marker on the
empty fresh frame, so the output has zero rows while the input has one: a
row is dropped, contradicting the claim. -/
theorem C2_counterexample :
    (map_and_align_columns ⟨[("ZZZ", [some "x"])]⟩ TARGET_HEADERS).idx = 0
    ∧ (map_and_align_columns ⟨[("ZZZ", [some "x"])]⟩ TARGET_HEADERS).cols.all
        (fun p => p.2.length = 0) = true
    ∧ ((⟨[("ZZZ", [some "x"])]⟩ : DF) : DF).cols.all (fun p => p.2.length = 1) = true :=
  ⟨by decide, by decide, by decide⟩

/-- C2 (amended): for every valid input table in which at least one
canonical field resolves, alignment returns exactly the canonical fields in
canonical order, each resolved field carrying the source column verbatim and
each unresolved field an all-missing column, with exactly the input row
count (and it never raises — the embedding is total).  Without the
resolved-field premise the output can have zero rows (see the
counterexample). -/
theorem C2_alignment :
    ∀ (df : DF) (n : Nat),
      (∀ p ∈ df.cols, p.2.length = n) →
      (∃ t ∈ TARGET_HEADERS, (detectColumn t (DF.headers df)).isSome) →
      map_and_align_columns df TARGET_HEADERS
        = ⟨n, TARGET_HEADERS.map (fun t => (t,
            match detectColumn t (DF.headers df) with
            | some c => dfColumn df c
            | none => List.replicate n none))⟩
      ∧ (map_and_align_columns df TARGET_HEADERS).idx = n
      ∧ (map_and_align_columns df TARGET_HEADERS).cols.map Prod.fst = TARGET_HEADERS
      ∧ (∀ p ∈ (map_and_align_columns df TARGET_HEADERS).cols, p.2.length = n) := by
  intro df n hcols hres
  have hNn : alignN df n TARGET_HEADERS = n := by
    unfold alignN
    obtain ⟨t, ht, hres2⟩ := hres
    have hany : TARGET_HEADERS.any (resolvedB df) = true :=
      List.any_eq_true.mpr ⟨t, ht, hres2⟩
    rw [hany]
    by_cases hn : 0 < n
    · simp [hn]
    · have hn0 : n = 0 := by omega
      subst hn0
      simp
  have hchar := map_and_align_char df n hcols TARGET_HEADERS
  rw [hNn] at hchar
  have hfill : ∀ t2, targetFill df n t2 = (match detectColumn t2 (DF.headers df) with
      | some c => dfColumn df c
      | none => List.replicate n none) := by
    intro t2
    unfold targetFill
    cases hd : detectColumn t2 (DF.headers df) with
    | none => rfl
    | some c =>
      exact reindexCol_self _ _ (dfColumn_length df n hcols c (detectColumn_mem _ _ _ hd))
  refine ⟨?_, ?_, ?_, ?_⟩
  · rw [hchar]
    simp only [OutDF.mk.injEq, true_and]
    apply List.map_congr_left
    intro t2 _
    rw [hfill t2]
  · rw [hchar]
  · rw [hchar]
    simp only [List.map_map]
    have hid : (Prod.fst ∘ fun t => (t, targetFill df n t)) = id := funext (fun t => rfl)
    rw [hid, List.map_id]
  · intro p hp
    rw [hchar] at hp
    obtain ⟨t2, ht2, hpt⟩ := List.mem_map.mp hp
    rw [← hpt]
    cases hd : detectColumn t2 (DF.headers df) with
    | some c => simp [targetFill, hd, reindexCol_length]
    | none => simp [targetFill, hd]

/-- Witness table: one row, one column that directly matches OB. -/
def dfW : DF := ⟨[("OB", [some "1"])]⟩

/-- Witness for the C2 amended theorem. -/
theorem C2_alignment_witness :
    (∀ p ∈ dfW.cols, p.2.length = 1)
    ∧ (∃ t ∈ TARGET_HEADERS, (detectColumn t (DF.headers dfW)).isSome)
    ∧ (map_and_align_columns dfW TARGET_HEADERS).idx = 1 :=
  ⟨by decide, by decide, (C2_alignment dfW 1 (by decide) (by decide)).2.1⟩

/-- Assigning one column leaves every other column unchanged. -/
theorem getCol_setCol_ne (o : OutDF) (a b : String) (v : List Cell) (h : b ≠ a) :
    OutDF.getCol (OutDF.setCol o a v) b = OutDF.getCol o b := by
  obtain ⟨idx, cols⟩ := o
  unfold OutDF.setCol OutDF.getCol
  induction cols with
  | nil => rfl
  | cons p rest ih =>
    by_cases hp : p.1 = a
    · have hpb : ¬ p.1 = b := by rw [hp]; exact fun h2 => h h2.symm
      have hab : ¬ a = b := fun h2 => h h2.symm
      simp only [List.map_cons, List.find?_cons, if_pos hp]
      simp [hab, hpb] at ih ⊢
      exact ih
    · by_cases hpb : p.1 = b
      · simp [List.find?_cons, hp, hpb, h]
      · simp only [List.map_cons, List.find?_cons, if_neg hp]
        simp [hpb] at ih ⊢
        exact ih

/-- The date-normalization pass leaves every other column unchanged. -/
theorem getCol_applyDateCol_ne (o : OutDF) (a b : String) (h : b ≠ a) :
    OutDF.getCol (applyDateCol o a) b = OutDF.getCol o b := by
  unfold applyDateCol
  by_cases hc : o.cols.any (fun p => p.1 = a) = true
  · rw [if_pos hc]
    exact getCol_setCol_ne o a b _ h
  · rw [if_neg hc]

/-- The active `process_data` carries the aligned SMS TEMPLATE column to its
output unchanged: it never writes that column. -/
theorem process_data_preserves_template (tv : String → String) (df : DF) (cycle : String) :
    OutDF.getCol (process_data tv df cycle) "SMS TEMPLATE"
      = OutDF.getCol (map_and_align_columns df TARGET_HEADERS) "SMS TEMPLATE" := by
  simp only [process_data]
  rw [getCol_setCol_ne _ _ _ _ (by decide)]
  rw [getCol_setCol_ne _ _ _ _ (by decide)]
  rw [getCol_setCol_ne _ _ _ _ (by decide)]
  rw [getCol_setCol_ne _ _ _ _ (by decide)]
  rw [getCol_applyDateCol_ne _ _ _ (by decide)]
  rw [getCol_applyDateCol_ne _ _ _ (by decide)]

/-- The C1 failing input: one row with MPR 500 and PDA 0 and no SMS TEMPLATE
column. -/
def dfC1 : DF := ⟨[("MPR", [some "500"]), ("PDA", [some "0"])]⟩

/-- C1 (code bug): on a table without an SMS TEMPLATE column and with
MPR=500, PDA=0, the active `process_data` (the second definition, which
shadows the first at run time) leaves SMS TEMPLATE missing instead of the
decision-table value "WITH MPR ONLY" that `detect_template` yields on that
row; the shadowed first definition would have derived exactly that value.
The preserved-verbatim half of the claim holds: `process_data` never writes
the SMS TEMPLATE column. -/
theorem C1_template_never_derived :
    dfC1.cols.all (fun p => p.1 ≠ "SMS TEMPLATE") = true
    ∧ OutDF.getCol (process_data (fun _ => "") dfC1 "7") "SMS TEMPLATE" = [none]
    ∧ detect_template (OutDF.row (map_and_align_columns dfC1 TARGET_HEADERS) 0) = "WITH MPR ONLY"
    ∧ OutDF.getCol (process_data_v1 (fun _ => "") dfC1 "7") "SMS TEMPLATE"
        = [some "WITH MPR ONLY"]
    ∧ (∀ (tv : String → String) (df : DF) (cycle : String),
        OutDF.getCol (process_data tv df cycle) "SMS TEMPLATE"
          = OutDF.getCol (map_and_align_columns df TARGET_HEADERS) "SMS TEMPLATE") :=
  ⟨by decide, by decide, by decide, by decide, process_data_preserves_template⟩

/-- The C3 failing input: a one-row final table whose SMS TEMPLATE is the
catalog key "TPAP SMS". -/
def dfC3 : OutDF :=
  ⟨1, TARGET_HEADERS.map (fun t => (t, [if t = "SMS TEMPLATE" then some "TPAP SMS" else some "x"]))⟩

/-- C3 (code bug): the export section offers exactly two artifacts, both the
full-table CSV including the PREVIEW column and named after the input file —
not one sanitized artifact per catalog template restricted to
`EXPORT_HEADERS` inside an archive, as the claim describes.  `EXPORT_HEADERS`
itself (the canonical fields without PREVIEW) exists but is never offered. -/
theorem C3_no_per_template_archive :
    ((exportDownloads dfC3 "f.csv").map Prod.fst = ["SMS_FULL_f.csv.csv", "SMS_FULL_f.csv.csv"])
    ∧ (exportDownloads dfC3 "f.csv").all (fun art => art.2 = toCsv dfC3) = true
    ∧ containsSub "PREVIEW" (toCsv dfC3) = true
    ∧ "TPAP SMS" ∈ TEMPLATE_KEYS
    ∧ (exportDownloads dfC3 "f.csv").all
        (fun art => art.1 ≠ sanitizeName "TPAP SMS") = true
    ∧ TEMPLATE_KEYS.length = 15
    ∧ EXPORT_HEADERS = ["CYCLE", "LOAN NUMBER", "CUSTOMER NAME", "MOBILE NUMBER", "BOS/CB",
        "OB", "MPR", "PDA", "PTP AMT", "PTP DATE", "TPAP DD", "BUCKET", "WITH CONTACT Y/N",
        "SMS TEMPLATE"]
    ∧ "PREVIEW" ∉ EXPORT_HEADERS := by
  refine ⟨by decide, by decide, by decide, by decide, by decide, by decide, by decide, by decide⟩

end App
